import Mathlib

/-!
Verification of the FreeStyle shared HID protocol engine
(`glucometerutils/support/freestyle.py`).

Byte strings are modelled as `List Nat` (each element a byte value, or a
Unicode code point for decoded text).  Python functions that raise are
modelled with `Option`/`Except`.
-/

/-- Code points of a string literal, used to write byte strings readably. -/
def sBytes (s : String) : List Nat := s.data.map (fun c => c.toNat)

/-- CR-LF line terminator `"\r\n"`. -/
def crlf : List Nat := sBytes "\r\n"

/-! ### Hexadecimal text

`_verify_checksum` (freestyle.py:44-66) receives the expected checksum as
hexadecimal text and parses it with Python's `int(s, 16)`; the device sends
checksums as 8 uppercase hex digits, while the spec's test property uses
Python's `hex()` (lowercase, `0x`-prefixed).  Both are modelled here.
-/

/-- Value of one hexadecimal digit character (`0-9`, `A-F`, `a-f`). -/
def hexDigitVal (c : Nat) : Option Nat :=
  if 48 ≤ c ∧ c ≤ 57 then some (c - 48)
  else if 65 ≤ c ∧ c ≤ 70 then some (c - 55)
  else if 97 ≤ c ∧ c ≤ 102 then some (c - 87)
  else none

/-- Accumulating base-16 parse of a digit sequence. -/
def parseHexAcc : List Nat → Nat → Option Nat
  | [], acc => some acc
  | c :: rest, acc =>
    match hexDigitVal c with
    | none => none
    | some d => parseHexAcc rest (acc * 16 + d)

/-- Strip an optional leading `0x`/`0X` as `int(s, 16)` accepts it. -/
def stripHexMark (l : List Nat) : List Nat :=
  match l with
  | a :: b :: rest => if a = 48 ∧ (b = 120 ∨ b = 88) then rest else l
  | _ => l

/-- Model of Python `int(s, 16)` on a non-negative hexadecimal string without
surrounding whitespace, sign or underscores (the only shapes this protocol
produces): optional `0x`/`0X` mark followed by at least one hex digit. -/
def pyIntBase16 (l : List Nat) : Option Nat :=
  match stripHexMark l with
  | [] => none
  | c :: rest => parseHexAcc (c :: rest) 0

/-- Uppercase hexadecimal digit character for a value below 16. -/
def hexUpperDigit (d : Nat) : Nat := if d < 10 then 48 + d else 55 + d

/-- Lowercase hexadecimal digit character for a value below 16. -/
def hexLowerDigit (d : Nat) : Nat := if d < 10 then 48 + d else 87 + d

/-- `k` uppercase hexadecimal digits of `n`, most significant first. -/
def toHexPadded : Nat → Nat → List Nat
  | 0, _ => []
  | k + 1, n => toHexPadded k (n / 16) ++ [hexUpperDigit (n % 16)]

/-- The 8-uppercase-hex-digit rendering used by the device for checksums. -/
def hex8 (n : Nat) : List Nat := toHexPadded 8 n

/-- Number of base-16 digits of `n` (0 for 0); proof-side measure only. -/
def hexLen (n : Nat) : Nat :=
  if n = 0 then 0 else hexLen (n / 16) + 1
termination_by n
decreasing_by exact Nat.div_lt_self (Nat.pos_of_ne_zero (by assumption)) (by omega)

/-- Lowercase hex digits of `n` accumulated in front of `rest`, with explicit
fuel (any fuel `≥ n` is enough, since `n / 16 < n` for positive `n`). -/
def toHexAuxF : Nat → Nat → List Nat → List Nat
  | 0, _, rest => rest
  | fuel + 1, n, rest =>
    if n = 0 then rest
    else toHexAuxF fuel (n / 16) (hexLowerDigit (n % 16) :: rest)

/-- Lowercase hex digits of `n` accumulated in front of `rest`. -/
def toHexAux (n : Nat) (rest : List Nat) : List Nat := toHexAuxF n n rest

/-- Model of Python `hex(n)` for `n ≥ 0`: `0x` followed by lowercase digits. -/
def pyHexBytes (n : Nat) : List Nat :=
  sBytes "0x" ++ (if n = 0 then [48] else toHexAux n [])

/-! ### Error taxonomy

The spec (§7) names the failure modes of the engine; each constructor below
records the concrete raise site in `freestyle.py` it stands for. -/

/-- Failures of the protocol engine.

* `encodingError` — the frame build fails because the payload exceeds 62
  bytes (spec `EncodingError`; `_FREESTYLE_MESSAGE.build`, freestyle.py:117).
* `unexpectedMessageType` — a reply frame's tag differs from the expected
  reply tag (spec `UnexpectedMessageType`; the
  `InvalidResponse('Message type ...')` raise, freestyle.py:157-160).
* `invalidResponse` — a reassembled reply or multirecord text does not match
  the structural grammar (freestyle.py:169 and freestyle.py:280).
* `invalidChecksum` — computed checksum disagrees with the transmitted one,
  carrying expected then calculated value (freestyle.py:65-66).
* `statusFailure` — device reported `CMD Fail!` with a non-empty body; the
  body is the error detail (freestyle.py:174-175).
* `statusFailureEmpty` — device reported `CMD Fail!` with an empty body;
  the generic `"Command failed"` detail is used (freestyle.py:175).
* `valueError` — `int(s, 16)` fails to parse (unreachable for
  regex-validated checksums).
* `streamExhausted` — the model's finite frame stream ran out where the
  Python code would block on `self._read()`. -/
inductive FsError
  | encodingError
  | unexpectedMessageType (t : Nat) (content : List Nat)
  | invalidResponse (buf : List Nat)
  | invalidChecksum (expected calculated : Nat)
  | statusFailure (body : List Nat)
  | statusFailureEmpty
  | valueError
  | streamExhausted
deriving DecidableEq, Repr

/-- `_verify_checksum` (freestyle.py:44-66): parse the expected checksum as
base 16, sum the byte values of the message (plain unbounded addition), and
fail with `InvalidChecksum(expected, calculated)` on mismatch. -/
def _verify_checksum (message : List Nat) (expected_checksum_hex : List Nat) :
    Except FsError Unit :=
  match pyIntBase16 expected_checksum_hex with
  | none => .error .valueError
  | some expected =>
    if expected ≠ message.sum then .error (.invalidChecksum expected message.sum)
    else .ok ()

deriving instance DecidableEq for Except

/-! ### Frame codec

`_FREESTYLE_MESSAGE` (freestyle.py:26-32) is a `construct.Struct`: a constant
zero HID-report byte, the message-type byte, then a 63-byte region holding a
one-byte length prefix, the payload (at most 62 bytes) and zero padding.
`build` fails (spec `EncodingError`) when a field does not fit. -/

/-- `_FREESTYLE_MESSAGE.build` (freestyle.py:26-32, invoked at 117-118):
the 65-byte outbound packet, or failure when the message type exceeds one
byte or the command exceeds 62 bytes. -/
def _FREESTYLE_MESSAGE_build (message_type : Nat) (command : List Nat) :
    Option (List Nat) :=
  if message_type ≤ 255 ∧ command.length ≤ 62 then
    some (0 :: message_type :: command.length ::
      (command ++ List.replicate (62 - command.length) 0))
  else none

/-- `_send_command` (freestyle.py:109-121): build the packet and hand it to
the transport.  The returned value is the packet passed to `self._write`;
on a build failure nothing is transmitted. -/
def _send_command (message_type : Nat) (command : List Nat) :
    Except FsError (List Nat) :=
  match _FREESTYLE_MESSAGE_build message_type command with
  | some usb_packet => .ok usb_packet
  | none => .error .encodingError

/-- The header extraction of `_read_response` (freestyle.py:131-133):
message type at offset 0, length at offset 1, exactly `length` payload bytes
from offset 2 (a short packet yields a short slice, as in Python). -/
def decodePacket (usb_packet : List Nat) : Nat × List Nat :=
  (usb_packet.headD 0, (usb_packet.drop 2).take ((usb_packet.drop 1).headD 0))

/-- Successive results of repeated `_read_response` calls
(freestyle.py:123-142) over a finite stream of raw packets: frames with
message type `0x22` and declared length 1 are skipped (the stray-frame
recursion at freestyle.py:138-139); a packet too short to carry the two
header bytes stops the stream (Python would raise there). -/
def readFrames : List (List Nat) → List (Nat × List Nat)
  | [] => []
  | usb_packet :: rest =>
    if usb_packet.length < 2 then []
    else if usb_packet.headD 0 = 0x22 ∧ (usb_packet.drop 1).headD 0 = 1 then
      readFrames rest
    else decodePacket usb_packet :: readFrames rest

/-! ### Command exchange engine (`_send_text_command`, freestyle.py:144-181) -/

/-- Message type used for text commands (freestyle.py:90). -/
def TEXT_CMD : Nat := 0x60

/-- Expected reply tag for text commands (freestyle.py:91). -/
def TEXT_REPLY_CMD : Nat := 0x60

/-- Substring test: does `pat` occur contiguously inside the second list? -/
def containsSub (pat : List Nat) : List Nat → Bool
  | [] => pat.isEmpty
  | l@(_ :: rest) => pat.isPrefixOf l || containsSub pat rest

/-- `_TEXT_COMPLETION_RE.search` (freestyle.py:34): the buffer contains
`b"CMD OK"` or `b"CMD Fail!"`. -/
def _TEXT_COMPLETION_search (s : List Nat) : Bool :=
  containsSub (sBytes "CMD OK") s || containsSub (sBytes "CMD Fail!") s

/-- Uppercase-hex-digit class `[0-9A-F]` of the reply regexes. -/
def isHexU (c : Nat) : Bool := decide ((48 ≤ c ∧ c ≤ 57) ∨ (65 ≤ c ∧ c ≤ 70))

/-- One alternative of `_TEXT_REPLY_FORMAT` with the tail flush at the end of
`s`: checks `s = message ++ "CKSM:" ++ hex8 ++ "\r\nCMD " ++ stWord ++ "\r\n"`
and returns the `message` and `checksum` groups. -/
def tailMatch (stWord s : List Nat) : Option (List Nat × List Nat) :=
  let tlen := 15 + (4 + stWord.length + 2)
  if s.length < tlen then none
  else
    let t := s.drop (s.length - tlen)
    if t.take 5 = sBytes "CKSM:" ∧ ((t.drop 5).take 8).all isHexU = true ∧
        t.drop 13 = crlf ++ sBytes "CMD " ++ stWord ++ crlf then
      some (s.take (s.length - tlen), (t.drop 5).take 8)
    else none

/-- `_TEXT_REPLY_FORMAT.search` (freestyle.py:35-37):
`^(?P<message>.*)CKSM:(?P<checksum>[0-9A-F]\x7b8\x7d)\r\nCMD
(?P<status>OK|Fail!)\r\n$` with `re.DOTALL`.  The greedy `.*` prefers the
longest message, i.e. the shortest tail, so the `OK` alternative (tail
length 23) is tried before `Fail!` (tail length 26); Python's `$` also
matches just before one final newline, handled by the `dropLast` branches
(the four cases are mutually exclusive, since they pin different characters
at the end of the buffer).  Returns message, checksum digits, and whether
the status group is `OK`. -/
def _TEXT_REPLY_FORMAT_search (s : List Nat) :
    Option (List Nat × List Nat × Bool) :=
  match tailMatch (sBytes "OK") s with
  | some (m, h) => some (m, h, true)
  | none =>
    match (match s.getLast? with
           | some 10 => tailMatch (sBytes "OK") s.dropLast
           | _ => none) with
    | some (m, h) => some (m, h, true)
    | none =>
      match tailMatch (sBytes "Fail!") s with
      | some (m, h) => some (m, h, false)
      | none =>
        match (match s.getLast? with
               | some 10 => tailMatch (sBytes "Fail!") s.dropLast
               | _ => none) with
        | some (m, h) => some (m, h, false)
        | none => none

/-- `bytes.decode('ascii', 'replace')` (freestyle.py:181): bytes below 128
decode to themselves, anything else becomes U+FFFD. -/
def asciiReplace (b : List Nat) : List Nat :=
  b.map (fun c => if c < 128 then c else 65533)

/-- The parse/validate/decode stage of `_send_text_command`
(freestyle.py:167-181), applied to the completely reassembled reply:
match the reply envelope, verify the checksum over the message body, gate on
the status, and decode the body permissively. -/
def processReply (full_content : List Nat) : Except FsError (List Nat) :=
  match _TEXT_REPLY_FORMAT_search full_content with
  | none => .error (.invalidResponse full_content)
  | some (message, checksum, statusOK) =>
    match _verify_checksum message checksum with
    | .error e => .error e
    | .ok _ =>
      if statusOK then .ok (asciiReplace message)
      else .error (if message = [] then .statusFailureEmpty
                   else .statusFailure message)

/-- The accumulation loop of `_send_text_command` (freestyle.py:150-165)
over the finite stream of frames returned by successive `_read_response`
calls: a frame whose tag differs from the expected reply tag aborts the
exchange; otherwise its payload is appended and the loop stops as soon as
the completion signature appears in the buffer. -/
def textLoop : List (Nat × List Nat) → List Nat → Except FsError (List Nat)
  | [], _ => .error .streamExhausted
  | (message_type, content) :: rest, full_content =>
    if message_type ≠ TEXT_REPLY_CMD then
      .error (.unexpectedMessageType message_type content)
    else
      let full2 := full_content ++ content
      if _TEXT_COMPLETION_search full2 then .ok full2
      else textLoop rest full2

/-- `_send_text_command` (freestyle.py:144-181) as a function of the frames
the response reader yields: reassemble until completion, then parse,
validate and decode. -/
def _send_text_command (frames : List (Nat × List Nat)) :
    Except FsError (List Nat) :=
  match textLoop frames [] with
  | .error e => .error e
  | .ok full_content => processReply full_content

/-- The whole exchange down to raw HID packets: frames are produced from the
packet stream by `_read_response` (with stray-frame skipping), then fed to
`_send_text_command`. -/
def _send_text_command_hid (packets : List (List Nat)) :
    Except FsError (List Nat) :=
  _send_text_command (readFrames packets)

/-- The well-formed successful reply stream for a given body, as in the
spec's reassembly property:
`body ++ "CKSM:" ++ hex8(sum(body)) ++ "\r\n" ++ "CMD OK" ++ "\r\n"`. -/
def okStream (body : List Nat) : List Nat :=
  body ++ sBytes "CKSM:" ++ hex8 body.sum ++ crlf ++ sBytes "CMD OK" ++ crlf

/-! ### Multi-record extractor (`_get_multirecord`, freestyle.py:255-287) -/

/-- Decimal-digit class `[0-9]`. -/
def isDigitB (c : Nat) : Bool := decide (48 ≤ c ∧ c ≤ 57)

/-- Model of `str.split('\r\n')`: split on every non-overlapping occurrence,
left to right, keeping empty pieces. -/
def splitCRLF : List Nat → List (List Nat)
  | [] => [[]]
  | 13 :: 10 :: rest => [] :: splitCRLF rest
  | c :: rest =>
    match splitCRLF rest with
    | [] => [[c]]
    | l :: ls => (c :: l) :: ls

/-- Model of `str.split(',')`. -/
def splitComma : List Nat → List (List Nat)
  | [] => [[]]
  | 44 :: rest => [] :: splitComma rest
  | c :: rest =>
    match splitComma rest with
    | [] => [[c]]
    | l :: ls => (c :: l) :: ls

/-- Model of `csv.reader` (freestyle.py:287) restricted to its exact domain:
lines without the quote character `"` and without a bare CR or LF.  On such
lines CPython's default-dialect reader returns exactly the comma-split
fields, and a blank line becomes one empty row (`_csv` returns `[]` for an
empty input line; `DictReader` filters those out, the plain `reader` does
not).  Outside this domain the real reader diverges from the model — it
performs quote processing at field starts and raises `csv.Error` on a bare
CR or LF inside a line — so every theorem that quantifies over texts only
does so under a hypothesis confining the body's lines to this domain;
concrete-input theorems use digit/comma lines, which lie inside it. -/
def csvReader (lines : List (List Nat)) : List (List (List Nat)) :=
  lines.map (fun line => if line = [] then [] else splitComma line)

/-- Backward scan for the `(?P<count>[0-9]+)` group of `_MULTIRECORDS_FORMAT`
with the comma at index `cpos`: the greedy `(?P<message>.+\r\n)` prefers the
longest message, so the count takes the fewest digits `k ≥ 1` such that
`s.take (cpos - k)` still ends in CR-LF and keeps the `.+\r\n` minimum
length 3.  Scanning stops at the first non-digit. -/
def countScanF : Nat → List Nat → Nat → Nat → Option Nat
  | 0, _, _, _ => none
  | fuel + 1, s, cpos, k =>
    if 1 ≤ k ∧ k ≤ cpos - 3 then
      if isDigitB (s.getD (cpos - k) 0) then
        if (s.take (cpos - k)).drop (cpos - k - 2) = crlf then some k
        else countScanF fuel s cpos (k + 1)
      else none
    else none

/-- Entry point of the scan at `k = 1`; `cpos` steps of fuel always suffice,
since the scan stops once `k` exceeds `cpos - 3`. -/
def countScan (s : List Nat) (cpos : Nat) (k : Nat) : Option Nat :=
  countScanF cpos s cpos k

/-- `_MULTIRECORDS_FORMAT` with the `\r\n$` flush at the end of `s`:
`s = message ++ count ++ "," ++ checksum ++ "\r\n"` with `message` ending in
CR-LF (length ≥ 3), `count` a non-empty digit run, `checksum` 8 uppercase
hex digits.  Returns the three groups. -/
def mrAt (s : List Nat) : Option (List Nat × List Nat × List Nat) :=
  if 15 ≤ s.length ∧ s.drop (s.length - 2) = crlf ∧
      ((s.drop (s.length - 10)).take 8).all isHexU = true ∧
      s.getD (s.length - 11) 0 = 44 then
    match countScan s (s.length - 11) 1 with
    | none => none
    | some k =>
      some (s.take (s.length - 11 - k),
            (s.drop (s.length - 11 - k)).take k,
            (s.drop (s.length - 10)).take 8)
  else none

/-- `_MULTIRECORDS_FORMAT.search` (freestyle.py:39-41):
`^(?P<message>.+\r\n)(?P<count>[0-9]+),(?P<checksum>[0-9A-F]\x7b8\x7d)\r\n$`
with `re.DOTALL`; as in `_TEXT_REPLY_FORMAT_search`, Python's `$` also
matches just before one final newline, and the two variants are mutually
exclusive. -/
def _MULTIRECORDS_FORMAT_search (s : List Nat) :
    Option (List Nat × List Nat × List Nat) :=
  match mrAt s with
  | some r => some r
  | none =>
    match s.getLast? with
    | some 10 => mrAt s.dropLast
    | _ => none

/-- `_get_multirecord` (freestyle.py:255-287) as a function of the decoded
reply text: recognize the empty-log sentinel, otherwise match the
count/checksum footer, verify the checksum over the message group, and
return the parsed rows (the count group is parsed but unused, as in the
source). -/
def _get_multirecord (message : List Nat) :
    Except FsError (List (List (List Nat))) :=
  if message = sBytes "Log Empty\r\n" then .ok []
  else
    match _MULTIRECORDS_FORMAT_search message with
    | none => .error (.invalidResponse message)
    | some (records_str, _count, checksum) =>
      match _verify_checksum records_str checksum with
      | .error e => .error e
      | .ok _ => .ok (csvReader (splitCRLF records_str))

/-! ## Lemmas about hexadecimal rendering and parsing -/

/-- Parsing an uppercase hex digit recovers its value. -/
theorem hexDigitVal_upper (d : Nat) (hd : d < 16) :
    hexDigitVal (hexUpperDigit d) = some d := by
  unfold hexUpperDigit hexDigitVal
  by_cases h : d < 10
  · rw [if_pos h, if_pos (show 48 ≤ 48 + d ∧ 48 + d ≤ 57 by omega)]
    exact congrArg some (by omega)
  · rw [if_neg h, if_neg (show ¬(48 ≤ 55 + d ∧ 55 + d ≤ 57) by omega),
      if_pos (show 65 ≤ 55 + d ∧ 55 + d ≤ 70 by omega)]
    exact congrArg some (by omega)

/-- Parsing a lowercase hex digit recovers its value. -/
theorem hexDigitVal_lower (d : Nat) (hd : d < 16) :
    hexDigitVal (hexLowerDigit d) = some d := by
  unfold hexLowerDigit hexDigitVal
  by_cases h : d < 10
  · rw [if_pos h, if_pos (show 48 ≤ 48 + d ∧ 48 + d ≤ 57 by omega)]
    exact congrArg some (by omega)
  · rw [if_neg h, if_neg (show ¬(48 ≤ 87 + d ∧ 87 + d ≤ 57) by omega),
      if_neg (show ¬(65 ≤ 87 + d ∧ 87 + d ≤ 70) by omega),
      if_pos (show 97 ≤ 87 + d ∧ 87 + d ≤ 102 by omega)]
    exact congrArg some (by omega)

/-- `toHexPadded` produces exactly `k` digits. -/
theorem toHexPadded_length (k n : Nat) : (toHexPadded k n).length = k := by
  induction k generalizing n with
  | zero => rfl
  | succ k ih => simp [toHexPadded, ih]

/-- Every digit `toHexPadded` produces is in the class `[0-9A-F]`. -/
theorem toHexPadded_all_isHexU (k n : Nat) :
    (toHexPadded k n).all isHexU = true := by
  induction k generalizing n with
  | zero => rfl
  | succ k ih =>
    simp only [toHexPadded, List.all_append, ih, Bool.true_and, List.all_cons,
      List.all_nil, Bool.and_true]
    unfold isHexU hexUpperDigit
    have := Nat.mod_lt n (show 0 < 16 by omega)
    by_cases h : n % 16 < 10
    · rw [if_pos h]; exact decide_eq_true (by omega)
    · rw [if_neg h]; exact decide_eq_true (by omega)

/-- Parsing the `k`-digit rendering of `n < 16 ^ k` continues the
accumulator with `n`. -/
theorem parseHexAcc_toHexPadded (k : Nat) : ∀ n rest acc, n < 16 ^ k →
    parseHexAcc (toHexPadded k n ++ rest) acc =
      parseHexAcc rest (acc * 16 ^ k + n) := by
  induction k with
  | zero =>
    intro n rest acc hn
    have : n = 0 := by simpa using hn
    simp [toHexPadded, this]
  | succ k ih =>
    intro n rest acc hn
    have hdiv : n / 16 < 16 ^ k := by
      rw [Nat.div_lt_iff_lt_mul (by omega)]
      calc n < 16 ^ (k + 1) := hn
        _ = 16 ^ k * 16 := by rw [Nat.pow_succ]
    have hstep : (toHexPadded k (n / 16) ++ [hexUpperDigit (n % 16)]) ++ rest =
        toHexPadded k (n / 16) ++ (hexUpperDigit (n % 16) :: rest) := by
      simp
    rw [toHexPadded, hstep, ih (n / 16) _ acc hdiv]
    show parseHexAcc (hexUpperDigit (n % 16) :: rest) _ = _
    rw [parseHexAcc, hexDigitVal_upper (n % 16) (Nat.mod_lt n (by omega))]
    show parseHexAcc rest ((acc * 16 ^ k + n / 16) * 16 + n % 16) =
      parseHexAcc rest (acc * 16 ^ (k + 1) + n)
    congr 1
    have hdm := Nat.div_add_mod n 16
    calc (acc * 16 ^ k + n / 16) * 16 + n % 16
        = acc * (16 ^ k * 16) + (16 * (n / 16) + n % 16) := by ring
      _ = acc * 16 ^ (k + 1) + n := by rw [hdm, Nat.pow_succ]

/-- A string of `[0-9A-F]` digits has no `0x`/`0X` mark to strip. -/
theorem stripHexMark_of_all_isHexU (l : List Nat) (h : l.all isHexU = true) :
    stripHexMark l = l := by
  match l with
  | [] => rfl
  | [a] => rfl
  | a :: b :: rest =>
    have hb : isHexU b = true := by
      simp only [List.all_cons, Bool.and_eq_true] at h
      exact h.2.1
    have : ¬(a = 48 ∧ (b = 120 ∨ b = 88)) := by
      unfold isHexU at hb
      have := of_decide_eq_true hb
      omega
    rw [stripHexMark, if_neg this]

/-- Parsing the device's 8-digit checksum rendering recovers the sum. -/
theorem pyIntBase16_hex8 (n : Nat) (hn : n < 2 ^ 32) :
    pyIntBase16 (hex8 n) = some n := by
  have h16 : n < 16 ^ 8 := by norm_num at hn ⊢; omega
  have hall := toHexPadded_all_isHexU 8 n
  have hlen := toHexPadded_length 8 n
  have hparse : parseHexAcc (toHexPadded 8 n) 0 = some n := by
    have := parseHexAcc_toHexPadded 8 n [] 0 h16
    simpa using this
  unfold pyIntBase16 hex8
  rw [stripHexMark_of_all_isHexU _ hall]
  match hm : toHexPadded 8 n with
  | [] => rw [hm] at hlen; simp at hlen
  | c :: rest => rw [hm] at hparse; exact hparse

/-- `hexLen 0 = 0`. -/
theorem hexLen_zero : hexLen 0 = 0 := by
  unfold hexLen; rfl

/-- `hexLen` counts one digit per division step. -/
theorem hexLen_step (n : Nat) (hn : n ≠ 0) : hexLen n = hexLen (n / 16) + 1 := by
  rw [hexLen, if_neg hn]

/-- Parsing the fueled lowercase rendering continues the accumulator. -/
theorem parseHexAcc_toHexAuxF (fuel : Nat) : ∀ n rest acc, n ≤ fuel →
    parseHexAcc (toHexAuxF fuel n rest) acc =
      parseHexAcc rest (acc * 16 ^ hexLen n + n) := by
  induction fuel with
  | zero =>
    intro n rest acc hn
    have : n = 0 := by omega
    subst this
    simp [toHexAuxF, hexLen_zero]
  | succ fuel ih =>
    intro n rest acc hn
    by_cases h : n = 0
    · subst h; simp [toHexAuxF, hexLen_zero]
    · rw [toHexAuxF, if_neg h]
      have hdiv : n / 16 ≤ fuel := by
        have := Nat.div_lt_self (Nat.pos_of_ne_zero h) (show 1 < 16 by omega)
        omega
      rw [ih (n / 16) _ acc hdiv]
      show parseHexAcc (hexLowerDigit (n % 16) :: rest) _ = _
      rw [parseHexAcc, hexDigitVal_lower (n % 16) (Nat.mod_lt n (by omega))]
      show parseHexAcc rest ((acc * 16 ^ hexLen (n / 16) + n / 16) * 16 + n % 16)
        = parseHexAcc rest (acc * 16 ^ hexLen n + n)
      congr 1
      have hdm := Nat.div_add_mod n 16
      calc (acc * 16 ^ hexLen (n / 16) + n / 16) * 16 + n % 16
          = acc * (16 ^ hexLen (n / 16) * 16) + (16 * (n / 16) + n % 16) := by
            ring
        _ = acc * 16 ^ (hexLen (n / 16) + 1) + n := by rw [hdm, Nat.pow_succ]
        _ = acc * 16 ^ hexLen n + n := by rw [← hexLen_step n h]

/-- The fueled rendering of a positive number is never empty. -/
theorem toHexAuxF_ne_nil (fuel : Nat) : ∀ n rest, n ≤ fuel →
    (rest ≠ [] ∨ n ≠ 0) → toHexAuxF fuel n rest ≠ [] := by
  induction fuel with
  | zero =>
    intro n rest hn hor
    have : n = 0 := by omega
    subst this
    simp only [toHexAuxF]
    rcases hor with h | h
    · exact h
    · exact absurd rfl h
  | succ fuel ih =>
    intro n rest hn hor
    by_cases h : n = 0
    · subst h
      rw [toHexAuxF, if_pos rfl]
      rcases hor with h | h
      · exact h
      · exact absurd rfl h
    · rw [toHexAuxF, if_neg h]
      refine ih (n / 16) _ ?_ (Or.inl (by simp))
      have := Nat.div_lt_self (Nat.pos_of_ne_zero h) (show 1 < 16 by omega)
      omega

/-- Parsing Python's `hex(n)` recovers `n`: `int(hex(n), 16) == n`. -/
theorem pyIntBase16_pyHexBytes (n : Nat) : pyIntBase16 (pyHexBytes n) = some n := by
  by_cases h : n = 0
  · subst h; decide
  · have h0x : sBytes "0x" = [48, 120] := by decide
    have hmark : sBytes "0x" ++ toHexAux n [] = 48 :: 120 :: toHexAux n [] := by
      rw [h0x]; rfl
    unfold pyHexBytes
    rw [if_neg h, hmark]
    have hne : toHexAux n [] ≠ [] :=
      toHexAuxF_ne_nil n n [] (le_refl n) (Or.inr h)
    have hparse : parseHexAcc (toHexAux n []) 0 = some n := by
      unfold toHexAux
      rw [parseHexAcc_toHexAuxF n n [] 0 (le_refl n)]
      simp [parseHexAcc]
    unfold pyIntBase16
    rw [show stripHexMark (48 :: 120 :: toHexAux n []) = toHexAux n [] by
      rw [stripHexMark, if_pos ⟨rfl, Or.inl rfl⟩]]
    match hm : toHexAux n [] with
    | [] => exact absurd hm hne
    | c :: rest => rw [hm] at hparse; exact hparse

/-! ## Reduction helpers for the exchange stages -/

/-- Unfolding `processReply` once the envelope parse result is known. -/
theorem processReply_eq (buf m cks : List Nat) (st : Bool)
    (hparse : _TEXT_REPLY_FORMAT_search buf = some (m, cks, st)) :
    processReply buf =
      match _verify_checksum m cks with
      | .error e => .error e
      | .ok _ =>
        if st then .ok (asciiReplace m)
        else .error (if m = [] then .statusFailureEmpty
                     else .statusFailure m) := by
  unfold processReply
  rw [hparse]

/-- A checksum whose transmitted value parses to the byte sum verifies. -/
theorem verify_checksum_ok (m cks : List Nat)
    (hcks : pyIntBase16 cks = some m.sum) :
    _verify_checksum m cks = .ok () := by
  unfold _verify_checksum
  rw [hcks]
  simp

/-- A checksum whose transmitted value parses to anything but the byte sum
fails with `InvalidChecksum`. -/
theorem verify_checksum_mismatch (m cks : List Nat) (v : Nat)
    (hp : pyIntBase16 cks = some v) (hv : v ≠ m.sum) :
    _verify_checksum m cks = .error (.invalidChecksum v m.sum) := by
  unfold _verify_checksum
  rw [hp]
  exact if_pos hv

/-- Unfolding `_get_multirecord` once the footer parse result is known. -/
theorem get_multirecord_eq (msg body countD cks : List Nat)
    (hne : msg ≠ sBytes "Log Empty\r\n")
    (hparse : _MULTIRECORDS_FORMAT_search msg = some (body, countD, cks)) :
    _get_multirecord msg =
      match _verify_checksum body cks with
      | .error e => .error e
      | .ok _ => .ok (csvReader (splitCRLF body)) := by
  unfold _get_multirecord
  rw [if_neg hne, hparse]

/-! ## Claim theorems -/

/-- C3: for every byte sequence `b`, verifying against `hex(sum(b))` succeeds,
and verifying against any hexadecimal string whose base-16 value differs from
the plain unbounded byte sum fails with `InvalidChecksum` carrying the
expected and the calculated value. -/
theorem C3_verify_checksum (b : List Nat) :
    _verify_checksum b (pyHexBytes b.sum) = .ok () ∧
    ∀ s v, pyIntBase16 s = some v → v ≠ b.sum →
      _verify_checksum b s = .error (.invalidChecksum v b.sum) := by
  constructor
  · exact verify_checksum_ok b (pyHexBytes b.sum) (pyIntBase16_pyHexBytes b.sum)
  · intro s v hp hv
    exact verify_checksum_mismatch b s v hp hv

theorem C3_verify_checksum_witness :
    _verify_checksum [1, 2, 3] (pyHexBytes 6) = .ok () ∧
    _verify_checksum [1, 2, 3] (sBytes "0x7") =
      .error (.invalidChecksum 7 6) :=
  ⟨(C3_verify_checksum [1, 2, 3]).1,
   (C3_verify_checksum [1, 2, 3]).2 (sBytes "0x7") 7 (by decide) (by decide)⟩

/-- C7: on the literal empty-log sentinel `"Log Empty\r\n"` the multi-record
fetch returns an empty record sequence at once; the footer grammar would not
even match this text, so no footer parsing or checksum verification happens. -/
theorem C7_log_empty :
    _get_multirecord (sBytes "Log Empty\r\n") = .ok [] ∧
    _MULTIRECORDS_FORMAT_search (sBytes "Log Empty\r\n") = none := by
  decide

/-- C4 counterexample: on the claim's exact text
`"10,25\r\n11,26\r\n2,CKSM:00000131\r\n"` the footer regex does not match
(the footer grammar is `count,checksum` with no `CKSM:` mark), so
`_get_multirecord` raises `InvalidResponse` instead of returning records;
moreover the claimed checksum `0x131` is not the byte sum of
`"10,25\r\n11,26\r\n"`, which is `536 = 0x218`, not `305 = 0x131`. -/
theorem C4_multirecord_counterexample :
    _get_multirecord (sBytes "10,25\r\n11,26\r\n2,CKSM:00000131\r\n") =
      .error (.invalidResponse
        (sBytes "10,25\r\n11,26\r\n2,CKSM:00000131\r\n")) ∧
    _verify_checksum (sBytes "10,25\r\n11,26\r\n") (sBytes "00000131") =
      .error (.invalidChecksum 305 536) := by
  decide

/-- C4 amended: on the well-formed text `"10,25\r\n11,26\r\n2,00000218\r\n"`
(footer without `CKSM:`, checksum `0x218` equal to the byte sum of
`"10,25\r\n11,26\r\n"`), `_get_multirecord` returns the rows
`["10","25"]`, `["11","26"]` and one trailing empty row, produced by
`csv.reader` from the empty line after the final CR-LF. -/
theorem C4_multirecord_amended :
    _get_multirecord (sBytes "10,25\r\n11,26\r\n2,00000218\r\n") =
      .ok [[sBytes "10", sBytes "25"], [sBytes "11", sBytes "26"], []] := by
  decide

/-- C9: a payload longer than 62 bytes makes the frame build fail
(spec `EncodingError`) before anything is handed to the transport. -/
theorem C9_encode_overflow (message_type : Nat) (command : List Nat)
    (h : 62 < command.length) :
    _send_command message_type command = .error .encodingError := by
  unfold _send_command _FREESTYLE_MESSAGE_build
  rw [if_neg (by omega)]

theorem C9_encode_overflow_witness :
    _send_command TEXT_CMD (List.replicate 63 0) = .error .encodingError :=
  C9_encode_overflow TEXT_CMD (List.replicate 63 0) (by decide)

/-- C8: during the accumulate phase, a frame whose message type differs from
the expected reply tag aborts the exchange with the unexpected-message-type
failure (the `InvalidResponse('Message type ...')` raise), whatever has been
accumulated so far. -/
theorem C8_unexpected_type (message_type : Nat) (content : List Nat)
    (rest : List (Nat × List Nat)) (acc : List Nat)
    (h : message_type ≠ TEXT_REPLY_CMD) :
    textLoop ((message_type, content) :: rest) acc =
      .error (.unexpectedMessageType message_type content) ∧
    _send_text_command ((message_type, content) :: rest) =
      .error (.unexpectedMessageType message_type content) := by
  have key : ∀ a : List Nat, textLoop ((message_type, content) :: rest) a =
      .error (.unexpectedMessageType message_type content) := by
    intro a
    simp only [textLoop]
    rw [if_pos h]
  refine ⟨key acc, ?_⟩
  unfold _send_text_command
  rw [key []]

theorem C8_unexpected_type_witness :
    textLoop [(0x21, [65])] [] = .error (.unexpectedMessageType 0x21 [65]) ∧
    _send_text_command [(0x21, [65])] =
      .error (.unexpectedMessageType 0x21 [65]) :=
  C8_unexpected_type 0x21 [65] [] [] (by decide)

/-- C6: a stray frame (message type `0x22`, declared length 1) in front of
the packet stream is discarded by the response reader, so the exchange's
result is unchanged. -/
theorem C6_stray_skip (stray : List Nat) (packets : List (List Nat))
    (hlen : 2 ≤ stray.length) (ht : stray.headD 0 = 0x22)
    (hl : (stray.drop 1).headD 0 = 1) :
    readFrames (stray :: packets) = readFrames packets ∧
    _send_text_command_hid (stray :: packets) =
      _send_text_command_hid packets := by
  have key : readFrames (stray :: packets) = readFrames packets := by
    simp only [readFrames]
    rw [if_neg (by omega), if_pos ⟨ht, hl⟩]
  refine ⟨key, ?_⟩
  unfold _send_text_command_hid
  rw [key]

theorem C6_stray_skip_witness :
    readFrames [[0x22, 1, 9], [0x60, 1, 65]] = readFrames [[0x60, 1, 65]] ∧
    _send_text_command_hid [[0x22, 1, 9], [0x60, 1, 65]] =
      _send_text_command_hid [[0x60, 1, 65]] :=
  C6_stray_skip [0x22, 1, 9] [[0x60, 1, 65]] (by decide) (by decide) (by decide)

/-- C2 counterexample: decoding the outbound frame exactly as
`_read_response` does (type at offset 0, length at offset 1) does not recover
`(t, p)`: the frame starts with the constant zero HID-report byte, so the
decoder sees message type 0 and length `t`.  At `t = 0x60`, `p = []` it
yields `(0, 63 zero bytes)`. -/
theorem C2_roundtrip_counterexample :
    (_FREESTYLE_MESSAGE_build 0x60 []).map decodePacket =
      some (0, List.replicate 63 0) ∧
    (0, List.replicate 63 0) ≠ ((0x60 : Nat), ([] : List Nat)) := by
  decide

/-- C2 amended: after dropping the leading constant HID-report byte — the
byte the HID transport consumes, so reply packets never carry it — decoding
recovers exactly `(t, p)` for every `t ≤ 255` and `len(p) ≤ 62`. -/
theorem C2_roundtrip_amended (message_type : Nat) (command : List Nat)
    (ht : message_type ≤ 255) (hc : command.length ≤ 62) :
    (_FREESTYLE_MESSAGE_build message_type command).map
      (fun f => decodePacket (f.drop 1)) = some (message_type, command) := by
  unfold _FREESTYLE_MESSAGE_build
  rw [if_pos ⟨ht, hc⟩]
  have hdec : decodePacket ((0 :: message_type :: command.length ::
      (command ++ List.replicate (62 - command.length) 0)).drop 1) =
      (message_type, command) := by
    simp only [decodePacket, List.drop_succ_cons, List.drop_zero,
      List.headD_cons, List.take_left]
  exact (congrArg some hdec)

theorem C2_roundtrip_amended_witness :
    (_FREESTYLE_MESSAGE_build 0x60 [1, 2]).map
      (fun f => decodePacket (f.drop 1)) = some (0x60, [1, 2]) :=
  C2_roundtrip_amended 0x60 [1, 2] (by decide) (by decide)

/-- C5: a completely reassembled reply that parses with status `Fail!` and a
valid checksum makes the exchange fail carrying the message body as detail,
or the generic command-failed detail when the body is empty. -/
theorem C5_status_fail (buf m cks : List Nat)
    (hparse : _TEXT_REPLY_FORMAT_search buf = some (m, cks, false))
    (hcks : pyIntBase16 cks = some m.sum) :
    processReply buf =
      .error (if m = [] then .statusFailureEmpty else .statusFailure m) := by
  rw [processReply_eq buf m cks false hparse,
    verify_checksum_ok m cks hcks]
  rfl

theorem C5_status_fail_witness :
    processReply (sBytes "ABCKSM:00000083\r\nCMD Fail!\r\n") =
      .error (.statusFailure (sBytes "AB")) := by
  have h := C5_status_fail (sBytes "ABCKSM:00000083\r\nCMD Fail!\r\n")
    (sBytes "AB") (sBytes "00000083") (by decide) (by decide)
  rw [h]
  decide

/-- C10 counterexample: empty lines do produce rows.  The body `"7\r\n"`
splits into the non-empty line `"7"` and one empty line, and the result has
an empty row for the latter — two rows, not the one row the claim predicts
for one non-empty line. -/
theorem C10_rows_counterexample :
    _get_multirecord (sBytes "7\r\n1,0000004E\r\n") =
      .ok [[sBytes "7"], []] ∧
    ([[sBytes "7"], []] : List (List (List Nat))) ≠ [[sBytes "7"]] := by
  decide

/-- C10 amended: for every decoded text matching the footer grammar whose
checksum verifies, and whose body lines carry no quote character and no bare
CR or LF (the domain on which the comma-split model coincides with
`csv.reader`'s default dialect), the extractor splits the body on CR-LF and
produces one row per line: non-empty lines parse as comma-separated fields,
and empty lines yield empty rows. -/
theorem C10_rows_amended (msg body countD cks : List Nat)
    (hparse : _MULTIRECORDS_FORMAT_search msg = some (body, countD, cks))
    (hcks : pyIntBase16 cks = some body.sum)
    (_hplain : ∀ line ∈ splitCRLF body, ∀ c ∈ line,
      c ≠ 13 ∧ c ≠ 10 ∧ c ≠ 34) :
    _get_multirecord msg =
      .ok ((splitCRLF body).map
        (fun line => if line = [] then [] else splitComma line)) := by
  have hne : msg ≠ sBytes "Log Empty\r\n" := by
    intro he
    have hnone : _MULTIRECORDS_FORMAT_search (sBytes "Log Empty\r\n") = none := by
      decide
    rw [he, hnone] at hparse
    exact Option.noConfusion hparse
  rw [get_multirecord_eq msg body countD cks hne hparse,
    verify_checksum_ok body cks hcks]
  rfl

theorem C10_rows_amended_witness :
    _get_multirecord (sBytes "8\r\n1,0000004F\r\n") = .ok [[sBytes "8"], []] := by
  have h := C10_rows_amended (sBytes "8\r\n1,0000004F\r\n") (sBytes "8\r\n")
    (sBytes "1") (sBytes "0000004F") (by decide) (by decide) (by decide)
  rw [h]
  decide

/-! ## Reassembly: lemmas for the multi-frame exchange -/

/-- `containsSub` decides the contiguous-substring relation. -/
theorem containsSub_iff (pat s : List Nat) :
    containsSub pat s = true ↔ pat <:+: s := by
  induction s with
  | nil =>
    show pat.isEmpty = true ↔ pat <:+: []
    rw [List.isEmpty_iff]
    constructor
    · intro h
      rw [h]
    · intro h
      exact List.eq_nil_of_infix_nil h
  | cons x t ih =>
    simp [containsSub, List.infix_cons_iff, ih, List.isPrefixOf_iff_prefix]

/-- The completion signature is present in every well-formed OK stream. -/
theorem completion_okStream (body : List Nat) :
    _TEXT_COMPLETION_search (okStream body) = true := by
  have h : sBytes "CMD OK" <:+: okStream body :=
    ⟨body ++ sBytes "CKSM:" ++ hex8 body.sum ++ crlf, crlf, rfl⟩
  unfold _TEXT_COMPLETION_search
  rw [(containsSub_iff _ _).mpr h]
  rfl

/-- One loop step that completes: the appended payload makes the completion
signature appear, so the loop returns the accumulated buffer. -/
theorem textLoop_cons_ok (c : List Nat) (rest : List (Nat × List Nat))
    (acc : List Nat) (h : _TEXT_COMPLETION_search (acc ++ c) = true) :
    textLoop ((TEXT_REPLY_CMD, c) :: rest) acc = .ok (acc ++ c) := by
  simp only [textLoop]
  rw [if_neg (by simp)]
  show (if _TEXT_COMPLETION_search (acc ++ c) then Except.ok (acc ++ c)
        else textLoop rest (acc ++ c)) = Except.ok (acc ++ c)
  rw [h]
  rfl

/-- One loop step that continues: no completion signature yet, so the loop
recurses on the rest of the frame stream with the grown buffer. -/
theorem textLoop_cons_continue (c : List Nat) (rest : List (Nat × List Nat))
    (acc : List Nat) (h : _TEXT_COMPLETION_search (acc ++ c) = false) :
    textLoop ((TEXT_REPLY_CMD, c) :: rest) acc = textLoop rest (acc ++ c) := by
  simp only [textLoop]
  rw [if_neg (by simp)]
  show (if _TEXT_COMPLETION_search (acc ++ c) then Except.ok (acc ++ c)
        else textLoop rest (acc ++ c)) = textLoop rest (acc ++ c)
  rw [h]
  rfl

/-- Running the loop over a chunked stream: if no proper leading group of
chunks already contains the completion signature, but the whole stream does,
the loop consumes every chunk and returns the full concatenation. -/
theorem textLoop_run (chunks : List (List Nat)) : ∀ acc : List Nat,
    chunks ≠ [] →
    (∀ k, k + 1 < chunks.length →
      _TEXT_COMPLETION_search (acc ++ (chunks.take (k + 1)).flatten) = false) →
    _TEXT_COMPLETION_search (acc ++ chunks.flatten) = true →
    textLoop (chunks.map (fun c => (TEXT_REPLY_CMD, c))) acc =
      .ok (acc ++ chunks.flatten) := by
  induction chunks with
  | nil => intro acc hne _ _; exact absurd rfl hne
  | cons c rest ih =>
    intro acc _ hpre hfull
    cases rest with
    | nil =>
      have hf : _TEXT_COMPLETION_search (acc ++ c) = true := by
        simpa using hfull
      simp only [List.map_cons, List.map_nil]
      rw [textLoop_cons_ok c [] acc hf]
      simp
    | cons d rest' =>
      have h0 : _TEXT_COMPLETION_search (acc ++ c) = false := by
        have := hpre 0 (by simp)
        simpa using this
      simp only [List.map_cons]
      rw [textLoop_cons_continue c _ acc h0]
      have hpre' : ∀ k, k + 1 < (d :: rest').length →
          _TEXT_COMPLETION_search
            ((acc ++ c) ++ ((d :: rest').take (k + 1)).flatten) = false := by
        intro k hk
        have := hpre (k + 1) (by simp at hk ⊢; omega)
        simpa [List.append_assoc] using this
      have hfull' : _TEXT_COMPLETION_search
          ((acc ++ c) ++ (d :: rest').flatten) = true := by
        simpa [List.append_assoc] using hfull
      have ihh := ih (acc ++ c) (by simp) hpre' hfull'
      simp only [List.map_cons] at ihh
      rw [ihh]
      simp [List.append_assoc]

/-- The OK tail of a well-formed stream matches the `OK` alternative of the
reply-envelope regex, with the body and checksum as groups. -/
theorem tailMatch_okStream (body : List Nat) :
    tailMatch (sBytes "OK") (okStream body) = some (body, hex8 body.sum) := by
  have hC : (sBytes "CKSM:").length = 5 := by decide
  have hH : (hex8 body.sum).length = 8 := by
    unfold hex8; exact toHexPadded_length 8 body.sum
  have hcr : crlf.length = 2 := by decide
  have hCMDOK : (sBytes "CMD OK").length = 6 := by decide
  have hsplit : okStream body = body ++
      (sBytes "CKSM:" ++ (hex8 body.sum ++ (crlf ++ (sBytes "CMD OK" ++ crlf)))) := by
    unfold okStream
    simp [List.append_assoc]
  have htail_len :
      (sBytes "CKSM:" ++ (hex8 body.sum ++ (crlf ++ (sBytes "CMD OK" ++ crlf)))).length
        = 23 := by
    simp only [List.length_append, hC, hH, hcr, hCMDOK]
  have hslen : (okStream body).length = body.length + 23 := by
    rw [hsplit, List.length_append, htail_len]
  have hdrop : (okStream body).drop ((okStream body).length - 23) =
      sBytes "CKSM:" ++ (hex8 body.sum ++ (crlf ++ (sBytes "CMD OK" ++ crlf))) := by
    rw [hslen, hsplit, Nat.add_sub_cancel]
    have := List.drop_left body
      (sBytes "CKSM:" ++ (hex8 body.sum ++ (crlf ++ (sBytes "CMD OK" ++ crlf))))
    exact this
  have htake : (okStream body).take ((okStream body).length - 23) = body := by
    rw [hslen, hsplit, Nat.add_sub_cancel]
    exact List.take_left body _
  have hd5 : (sBytes "CKSM:" ++
      (hex8 body.sum ++ (crlf ++ (sBytes "CMD OK" ++ crlf)))).drop 5 =
      hex8 body.sum ++ (crlf ++ (sBytes "CMD OK" ++ crlf)) := by
    rw [← hC]
    exact List.drop_left _ _
  have ht5 : (sBytes "CKSM:" ++
      (hex8 body.sum ++ (crlf ++ (sBytes "CMD OK" ++ crlf)))).take 5 =
      sBytes "CKSM:" := by
    rw [← hC]
    exact List.take_left _ _
  have ht8 : (hex8 body.sum ++ (crlf ++ (sBytes "CMD OK" ++ crlf))).take 8 =
      hex8 body.sum := by
    rw [← hH]
    exact List.take_left _ _
  have hd13 : (sBytes "CKSM:" ++
      (hex8 body.sum ++ (crlf ++ (sBytes "CMD OK" ++ crlf)))).drop 13 =
      crlf ++ sBytes "CMD " ++ sBytes "OK" ++ crlf := by
    rw [← List.append_assoc]
    have h13 : (sBytes "CKSM:" ++ hex8 body.sum).length = 13 := by
      rw [List.length_append, hC, hH]
    rw [← h13, List.drop_left]
    decide
  show (if (okStream body).length < 23 then none
    else if ((okStream body).drop ((okStream body).length - 23)).take 5 =
        sBytes "CKSM:" ∧
      ((((okStream body).drop ((okStream body).length - 23)).drop 5).take 8).all
        isHexU = true ∧
      ((okStream body).drop ((okStream body).length - 23)).drop 13 =
        crlf ++ sBytes "CMD " ++ sBytes "OK" ++ crlf then
      some ((okStream body).take ((okStream body).length - 23),
        (((okStream body).drop ((okStream body).length - 23)).drop 5).take 8)
    else none) = some (body, hex8 body.sum)
  rw [if_neg (by rw [hslen]; omega), hdrop, htake, hd5, ht8, ht5, hd13,
    if_pos ⟨rfl, by unfold hex8; exact toHexPadded_all_isHexU 8 body.sum, rfl⟩]

/-- A well-formed OK stream parses as (body, checksum digits, status OK). -/
theorem reply_format_okStream (body : List Nat) :
    _TEXT_REPLY_FORMAT_search (okStream body) =
      some (body, hex8 body.sum, true) := by
  unfold _TEXT_REPLY_FORMAT_search
  rw [tailMatch_okStream body]

/-- A well-formed OK stream passes all exchange stages and yields the
decoded body. -/
theorem processReply_okStream (body : List Nat) (hsum : body.sum < 2 ^ 32) :
    processReply (okStream body) = .ok (asciiReplace body) := by
  rw [processReply_eq (okStream body) body (hex8 body.sum) true
      (reply_format_okStream body),
    verify_checksum_ok body (hex8 body.sum)
      (by rw [pyIntBase16_hex8 body.sum hsum])]
  rfl

/-- C1 counterexample: reassembly is not chunk-boundary-independent.  For
`body = []` the full stream is `"CKSM:00000000\r\nCMD OK\r\n"`; split as
`["CKSM:00000000\r\nCMD OK", "\r\n"]` the completion scan fires after the
first frame, the truncated buffer fails the envelope parse, and the exchange
raises `InvalidResponse` instead of returning the decoded empty body. -/
theorem C1_reassembly_counterexample :
    sBytes "CKSM:00000000\r\nCMD OK" ++ sBytes "\r\n" = okStream [] ∧
    _send_text_command [(TEXT_REPLY_CMD, sBytes "CKSM:00000000\r\nCMD OK"),
        (TEXT_REPLY_CMD, sBytes "\r\n")] =
      .error (.invalidResponse (sBytes "CKSM:00000000\r\nCMD OK")) ∧
    _send_text_command [(TEXT_REPLY_CMD, sBytes "CKSM:00000000\r\nCMD OK"),
        (TEXT_REPLY_CMD, sBytes "\r\n")] ≠ .ok (asciiReplace []) := by
  decide

/-- C1 amended: for every byte string `body` (with `sum(body)` representable
in 8 hex digits) and every split of
`body ++ "CKSM:" ++ hex8(sum(body)) ++ "\r\n" ++ "CMD OK\r\n"` into `N ≥ 1`
fragments delivered as successive frames of the expected reply type, the
exchange returns `body` decoded to text — provided no proper leading group
of fragments already contains the completion signature (`b"CMD OK"` or
`b"CMD Fail!"`); among such splits the result is chunk-boundary-independent. -/
theorem C1_reassembly_amended (body : List Nat) (chunks : List (List Nat))
    (hne : chunks ≠ [])
    (hflat : chunks.flatten = okStream body)
    (hpre : ∀ k, k + 1 < chunks.length →
      _TEXT_COMPLETION_search ((chunks.take (k + 1)).flatten) = false)
    (hsum : body.sum < 2 ^ 32) :
    _send_text_command (chunks.map (fun c => (TEXT_REPLY_CMD, c))) =
      .ok (asciiReplace body) := by
  have hpre' : ∀ k, k + 1 < chunks.length →
      _TEXT_COMPLETION_search (([] : List Nat) ++
        (chunks.take (k + 1)).flatten) = false := by
    intro k hk
    simpa using hpre k hk
  have hfull : _TEXT_COMPLETION_search (([] : List Nat) ++ chunks.flatten)
      = true := by
    rw [List.nil_append, hflat]
    exact completion_okStream body
  have hloop := textLoop_run chunks [] hne hpre' hfull
  unfold _send_text_command
  rw [hloop]
  show processReply (([] : List Nat) ++ chunks.flatten) = _
  rw [List.nil_append, hflat]
  exact processReply_okStream body hsum

theorem C1_reassembly_witness :
    _send_text_command
      ([[72], okStream [72, 73] |>.drop 1].map (fun c => (TEXT_REPLY_CMD, c)))
      = .ok (asciiReplace [72, 73]) := by
  have h := C1_reassembly_amended [72, 73]
    [[72], okStream [72, 73] |>.drop 1]
    (by decide)
    (by decide)
    (by
      intro k hk
      have hk1 : k = 0 := by
        simp at hk
        omega
      subst hk1
      decide)
    (by decide)
  exact h
